import Mathlib

/-!
Verification of the natural-language specification of `litesata/common.py`
against a shallow embedding of that file.  Python dict literals are embedded
as association lists in source order; migen `Signal` registers are embedded
as natural numbers reduced modulo `2 ^ width` on every synchronous update;
the decorated `InsertReset` / `InsertCE` wrappers become explicit boolean
inputs of the step function, with reset taking priority over count-enable
(the reset transform wraps the enable transform in the source).
-/

namespace LiteSata

/-- The `primitives` dict literal of the source, in source order.  The literal
holds 14 entries; the key `CONT` appears twice, both times bound to the value
`0x9999AA7C`, so the runtime Python dict (which keeps one entry per key) gives
every lookup below the same answer as this list. -/
def primitives : List (String × ℕ) :=
  [("ALIGN", 0x7B4A4ABC),
   ("CONT",  0x9999AA7C),
   ("SYNC",  0xB5B5957C),
   ("R_RDY", 0x4A4A957C),
   ("R_OK",  0x3535B57C),
   ("R_ERR", 0x5656B57C),
   ("R_IP",  0x5555B57C),
   ("X_RDY", 0x5757B57C),
   ("CONT",  0x9999AA7C),
   ("WTRM",  0x5858B57C),
   ("SOF",   0x3737B57C),
   ("EOF",   0xD5D5B57C),
   ("HOLD",  0xD5D5AA7C),
   ("HOLDA", 0x9595AA7C)]

/-- `is_primitive(dword)`: scans the table and returns `True` on the first
value equal to `dword`, else `False`. -/
def is_primitive (dword : ℕ) : Bool :=
  primitives.any fun kv => dword == kv.2

/-- `decode_primitive(dword)`: returns the key of the first entry whose value
equals `dword`, or the empty string when none matches. -/
def decode_primitive (dword : ℕ) : String :=
  match primitives.find? (fun kv => dword == kv.2) with
  | some kv => kv.1
  | none => ""

/-- The part of migen's `EndpointDescription` the descriptor constructors of
this file use: the ordered field layout (name, bit width) and the
`packetized` flag. -/
structure EndpointDescription where
  layout : List (String × ℕ)
  packetized : Bool
deriving DecidableEq

def phy_description (dw : ℕ) : EndpointDescription :=
  { layout := [("data", dw), ("charisk", dw / 8)], packetized := false }

def link_description (dw : ℕ) : EndpointDescription :=
  { layout := [("d", dw), ("error", 1)], packetized := true }

def transport_tx_description (dw : ℕ) : EndpointDescription :=
  { layout :=
      [("type", 8), ("pm_port", 4), ("c", 1), ("command", 8), ("features", 16),
       ("lba", 48), ("device", 8), ("count", 16), ("icc", 8), ("control", 8),
       ("data", dw)],
    packetized := true }

def transport_rx_description (dw : ℕ) : EndpointDescription :=
  { layout :=
      [("type", 8), ("pm_port", 4), ("r", 1), ("d", 1), ("i", 1), ("status", 8),
       ("error", 8), ("lba", 48), ("device", 8), ("count", 16),
       ("transfer_count", 16), ("data", dw), ("error", 1)],
    packetized := true }

def command_tx_description (dw : ℕ) : EndpointDescription :=
  { layout :=
      [("write", 1), ("read", 1), ("identify", 1), ("sector", 48),
       ("count", 16), ("data", dw)],
    packetized := true }

def command_rx_description (dw : ℕ) : EndpointDescription :=
  { layout :=
      [("write", 1), ("read", 1), ("identify", 1), ("last", 1),
       ("success", 1), ("failed", 1), ("data", dw)],
    packetized := true }

def command_rx_cmd_description (_dw : ℕ) : EndpointDescription :=
  { layout :=
      [("write", 1), ("read", 1), ("identify", 1), ("last", 1),
       ("success", 1), ("failed", 1)],
    packetized := false }

def command_rx_data_description (dw : ℕ) : EndpointDescription :=
  { layout := [("data", dw)], packetized := true }

/-- `FISField(dword, offset, width)`. -/
structure FISField where
  dword : ℕ
  offset : ℕ
  width : ℕ
deriving DecidableEq

def fis_reg_h2d_cmd_len : ℕ := 5

/-- `fis_reg_h2d_layout`, in source order. -/
def fis_reg_h2d_layout : List (String × FISField) :=
  [("type",         ⟨0,  0, 8⟩),
   ("pm_port",      ⟨0,  8, 4⟩),
   ("c",            ⟨0, 15, 1⟩),
   ("command",      ⟨0, 16, 8⟩),
   ("features_lsb", ⟨0, 24, 8⟩),
   ("lba_lsb",      ⟨1,  0, 24⟩),
   ("device",       ⟨1, 24, 8⟩),
   ("lba_msb",      ⟨2,  0, 24⟩),
   ("features_msb", ⟨2, 24, 8⟩),
   ("count",        ⟨3,  0, 16⟩),
   ("icc",          ⟨3, 16, 8⟩),
   ("control",      ⟨3, 24, 8⟩)]

def fis_reg_d2h_cmd_len : ℕ := 5

/-- `fis_reg_d2h_layout`, in source order. -/
def fis_reg_d2h_layout : List (String × FISField) :=
  [("type",    ⟨0,  0, 8⟩),
   ("pm_port", ⟨0,  8, 4⟩),
   ("i",       ⟨0, 14, 1⟩),
   ("status",  ⟨0, 16, 8⟩),
   ("error",   ⟨0, 24, 8⟩),
   ("lba_lsb", ⟨1,  0, 24⟩),
   ("device",  ⟨1, 24, 8⟩),
   ("lba_msb", ⟨2,  0, 24⟩),
   ("count",   ⟨3,  0, 16⟩)]

def fis_dma_activate_d2h_cmd_len : ℕ := 1

/-- `fis_dma_activate_d2h_layout`. -/
def fis_dma_activate_d2h_layout : List (String × FISField) :=
  [("type",    ⟨0, 0, 8⟩),
   ("pm_port", ⟨0, 8, 4⟩)]

def fis_pio_setup_d2h_cmd_len : ℕ := 5

/-- `fis_pio_setup_d2h_layout`, in source order. -/
def fis_pio_setup_d2h_layout : List (String × FISField) :=
  [("type",           ⟨0,  0, 8⟩),
   ("pm_port",        ⟨0,  8, 4⟩),
   ("d",              ⟨0, 13, 1⟩),
   ("i",              ⟨0, 14, 1⟩),
   ("status",         ⟨0, 16, 8⟩),
   ("error",          ⟨0, 24, 8⟩),
   ("lba_lsb",        ⟨1,  0, 24⟩),
   ("lba_msb",        ⟨2,  0, 24⟩),
   ("count",          ⟨3,  0, 16⟩),
   ("transfer_count", ⟨4,  0, 16⟩)]

def fis_data_cmd_len : ℕ := 1

/-- `fis_data_layout`. -/
def fis_data_layout : List (String × FISField) :=
  [("type", ⟨0, 0, 8⟩)]

/-- Two FIS fields overlap when they sit in the same dword and their half-open
bit ranges `[offset, offset + width)` intersect. -/
def fisOverlap (a b : FISField) : Prop :=
  a.dword = b.dword ∧
    max a.offset b.offset < min (a.offset + a.width) (b.offset + b.width)

instance (a b : FISField) : Decidable (fisOverlap a b) := by
  unfold fisOverlap; infer_instance

/-- Number of dwords spanned by the fixed fields of a layout
(one past the largest referenced dword index). -/
def layoutDwordSpan (l : List (String × FISField)) : ℕ :=
  (l.map fun p => p.2.dword + 1).foldr max 0

/-- `logical_sector_size` constant. -/
def logical_sector_size : ℕ := 512

/-- Bit length of `n` by repeated halving; `fuel` bounds the recursion and any
`fuel ≥ n` gives the exact bit length. -/
def bitLenAux : ℕ → ℕ → ℕ
  | 0, _ => 0
  | fuel + 1, n => if n = 0 then 0 else bitLenAux fuel (n / 2) + 1

/-- Bit length of `n` (number of binary digits; 0 for 0). -/
def bitLen (n : ℕ) : ℕ :=
  bitLenAux n n

/-- `m` rounded to at most 53 significant binary digits, round to nearest with
ties to even: the binary64 rounding of the integer `m` (exact in binary64's
finite range, which covers every value the theorems below evaluate). -/
def roundSig53 (m : ℕ) : ℕ :=
  if bitLen m ≤ 53 then m
  else
    let s := bitLen m - 53
    let q := m / 2 ^ s
    let r := m % 2 ^ s
    let half := 2 ^ (s - 1)
    (if half < r then q + 1
     else if r < half then q
     else if q % 2 = 0 then q else q + 1) * 2 ^ s

/-- `dwords2sectors(n) = math.ceil(n*4/logical_sector_size)`.  `n*4` is exact
integer arithmetic; CPython's `/` on ints returns the binary64 value nearest
the exact quotient (ties to even).  Since 512 is a power of two, dividing by
it only shifts the exponent, so for `n ≥ 1` the float quotient equals
`roundSig53 (n*4) / 512` exactly (the quotient is normal for every `n ≥ 1`,
and below the float overflow bound, beyond which CPython raises instead of
returning a value; every theorem below stays far inside that bound).
`math.ceil` of a float is exact. -/
def dwords2sectors (n : ℕ) : ℕ :=
  (⌈(roundSig53 (n * 4) : ℚ) / (logical_sector_size : ℚ)⌉).toNat

/-- `sectors2dwords(n) = n*logical_sector_size//4` (exact: 512 is a multiple
of 4). -/
def sectors2dwords (n : ℕ) : ℕ :=
  n * logical_sector_size / 4

/-- One synchronous update of the decorated `Counter` register of width `w`:
`InsertReset` (outermost) forces the register to 0, else `InsertCE` gates the
increment, and assignment truncates `value + 1` to `w` bits. -/
def counterStep (w value : ℕ) (reset ce : Bool) : ℕ :=
  if reset then 0 else if ce then (value + 1) % 2 ^ w else value

/-- Trace of the `Counter` register: `counterRun w reset ce t` is the register
contents after clock edge `t`; the register powers up at 0, and the inputs
sampled at edge `t + 1` produce the value at step `t + 1`
(`reset 0` / `ce 0` are never consulted). -/
def counterRun (w : ℕ) (reset ce : ℕ → Bool) : ℕ → ℕ
  | 0 => 0
  | t + 1 => counterStep w (counterRun w reset ce t) (reset (t + 1)) (ce (t + 1))

/-- migen's `bits_for(n)` for `n ≥ 0`: the number of bits needed to represent
`n` unsigned (`bits_for 0 = 1`). -/
def bits_for (n : ℕ) : ℕ :=
  if n = 0 then 1 else bitLen n

/-- Width of `Timeout`'s internal register: `Signal(max=length)` allocates
`bits_for (length - 1)` bits. -/
def timeoutBits (length : ℕ) : ℕ :=
  bits_for (length - 1)

/-- Trace of `Timeout(length)`'s internal `value` register (same decorated
synchronous update as `Counter`, at the width given by `Signal(max=length)`). -/
def timeoutValue (length : ℕ) (reset ce : ℕ → Bool) (t : ℕ) : ℕ :=
  counterRun (timeoutBits length) reset ce t

/-- `Timeout`'s combinational output: `reached = (value == length)`. -/
def timeoutReached (length : ℕ) (reset ce : ℕ → Bool) (t : ℕ) : Bool :=
  timeoutValue length reset ce t == length

/-! ## Theorems -/

/-- C1: every value bound in the primitive table decodes to its associated
name and tests positive under `is_primitive`; every 32-bit value not bound in
the table tests negative and decodes to the empty-string sentinel. -/
theorem primitive_lookup_correct : ∀ w : ℕ, w < 2 ^ 32 →
    (∀ p ∈ primitives, p.2 = w →
      is_primitive w = true ∧ decode_primitive w = p.1) ∧
    ((∀ p ∈ primitives, p.2 ≠ w) →
      is_primitive w = false ∧ decode_primitive w = "") := by
  intro w _
  constructor
  · intro p hp he
    subst he
    simp only [primitives] at hp
    fin_cases hp <;> exact ⟨rfl, rfl⟩
  · intro h
    constructor
    · unfold is_primitive
      rw [List.any_eq_false]
      intro p hp
      simp only [beq_iff_eq]
      exact fun e => h p hp e.symm
    · unfold decode_primitive
      have h2 : primitives.find? (fun kv => w == kv.2) = none :=
        List.find?_eq_none.mpr fun p hp => by
          simp only [beq_iff_eq]
          exact fun e => h p hp e.symm
      rw [h2]

/-- Witness for C1 at the bound value `0x7B4A4ABC` (ALIGN) and at the unbound
value `7`. -/
theorem primitive_lookup_correct_witness :
    (is_primitive 0x7B4A4ABC = true ∧ decode_primitive 0x7B4A4ABC = "ALIGN") ∧
    (is_primitive 7 = false ∧ decode_primitive 7 = "") :=
  ⟨(primitive_lookup_correct 0x7B4A4ABC (by norm_num)).1
      ("ALIGN", 0x7B4A4ABC) (by decide) rfl,
   (primitive_lookup_correct 7 (by norm_num)).2 (by decide)⟩

/-- C9: the primitive table literal has exactly 14 entries, every entry name is
one of the 13 listed names, every listed name occurs, and no name is bound to
two different 32-bit values (the duplicated CONT key binds the same value both
times). -/
theorem primitive_table_entries :
    primitives.length = 14 ∧
    (∀ p ∈ primitives, p.1 ∈
      (["ALIGN", "CONT", "SYNC", "R_RDY", "R_OK", "R_ERR", "R_IP", "X_RDY",
        "WTRM", "SOF", "EOF", "HOLD", "HOLDA"] : List String)) ∧
    (∀ n ∈ (["ALIGN", "CONT", "SYNC", "R_RDY", "R_OK", "R_ERR", "R_IP",
        "X_RDY", "WTRM", "SOF", "EOF", "HOLD", "HOLDA"] : List String),
      ∃ p ∈ primitives, p.1 = n) ∧
    (∀ p ∈ primitives, ∀ q ∈ primitives, p.1 = q.1 → p.2 = q.2) := by
  decide

/-- C10: `command_rx_cmd_description` is independent of its width argument,
consists of exactly the six 1-bit flag fields with no data field, and is the
only command-layer descriptor that is not packetized. -/
theorem command_rx_cmd_description_constant : ∀ dw1 dw2 : ℕ,
    command_rx_cmd_description dw1 = command_rx_cmd_description dw2 ∧
    (command_rx_cmd_description dw1).layout =
      [("write", 1), ("read", 1), ("identify", 1), ("last", 1),
       ("success", 1), ("failed", 1)] ∧
    (command_rx_cmd_description dw1).packetized = false ∧
    (command_tx_description dw1).packetized = true ∧
    (command_rx_description dw1).packetized = true ∧
    (command_rx_data_description dw1).packetized = true :=
  fun _ _ => ⟨rfl, rfl, rfl, rfl, rfl, rfl⟩

/-- C2 counterexample: the transport-RX descriptor names the 8-bit FIS error
byte and the 1-bit transport error flag identically ("error"), so its field
names are not pairwise distinct (shown at width 32). -/
theorem transport_rx_duplicate_error_name :
    ¬ (((transport_rx_description 32).layout.map Prod.fst).Nodup) := by
  decide

/-- C2 (amended): every descriptor constructed by the descriptor functions
other than `transport_rx_description` has pairwise distinct field names; the
transport-RX descriptor does carry the 8-bit FIS error byte and the 1-bit
transport error flag as two separate layout entries (positions 6 and 12), but
both entries bear the same name "error", so its field names are not pairwise
distinct. -/
theorem descriptor_field_names : ∀ dw : ℕ,
    ((phy_description dw).layout.map Prod.fst).Nodup ∧
    ((link_description dw).layout.map Prod.fst).Nodup ∧
    ((transport_tx_description dw).layout.map Prod.fst).Nodup ∧
    ((command_tx_description dw).layout.map Prod.fst).Nodup ∧
    ((command_rx_description dw).layout.map Prod.fst).Nodup ∧
    ((command_rx_cmd_description dw).layout.map Prod.fst).Nodup ∧
    ((command_rx_data_description dw).layout.map Prod.fst).Nodup ∧
    (transport_rx_description dw).layout.get? 6 = some ("error", 8) ∧
    (transport_rx_description dw).layout.get? 12 = some ("error", 1) ∧
    ¬ (((transport_rx_description dw).layout.map Prod.fst).Nodup) := by
  intro dw
  refine ⟨?_, ?_, ?_, ?_, ?_, ?_, ?_, rfl, rfl, ?_⟩
  · rw [show (phy_description dw).layout.map Prod.fst
        = ["data", "charisk"] from rfl]
    decide
  · rw [show (link_description dw).layout.map Prod.fst
        = ["d", "error"] from rfl]
    decide
  · rw [show (transport_tx_description dw).layout.map Prod.fst
        = ["type", "pm_port", "c", "command", "features", "lba", "device",
           "count", "icc", "control", "data"] from rfl]
    decide
  · rw [show (command_tx_description dw).layout.map Prod.fst
        = ["write", "read", "identify", "sector", "count", "data"] from rfl]
    decide
  · rw [show (command_rx_description dw).layout.map Prod.fst
        = ["write", "read", "identify", "last", "success", "failed",
           "data"] from rfl]
    decide
  · rw [show (command_rx_cmd_description dw).layout.map Prod.fst
        = ["write", "read", "identify", "last", "success", "failed"] from rfl]
    decide
  · rw [show (command_rx_data_description dw).layout.map Prod.fst
        = ["data"] from rfl]
    decide
  · rw [show (transport_rx_description dw).layout.map Prod.fst
        = ["type", "pm_port", "r", "d", "i", "status", "error", "lba",
           "device", "count", "transfer_count", "data", "error"] from rfl]
    decide

/-- C3: in each of the five FIS layouts, no two distinct fields occupy
overlapping bit positions within the same dword. -/
theorem fis_layout_no_overlap :
    fis_reg_h2d_layout.Pairwise (fun p q => ¬ fisOverlap p.2 q.2) ∧
    fis_reg_d2h_layout.Pairwise (fun p q => ¬ fisOverlap p.2 q.2) ∧
    fis_dma_activate_d2h_layout.Pairwise (fun p q => ¬ fisOverlap p.2 q.2) ∧
    fis_pio_setup_d2h_layout.Pairwise (fun p q => ¬ fisOverlap p.2 q.2) ∧
    fis_data_layout.Pairwise (fun p q => ¬ fisOverlap p.2 q.2) := by
  decide

/-- C5 counterexample: the declared command dword counts of the two register
FIS layouts are 5, not 4 as the claim states. -/
theorem fis_reg_cmd_len_not_four :
    ¬ (fis_reg_h2d_cmd_len = 4 ∧ fis_reg_d2h_cmd_len = 4) := by
  decide

/-- C5 (amended): the declared command dword counts of the layout table are
REG_H2D = 5, REG_D2H = 5, DMA_ACTIVATE_D2H = 1, PIO_SETUP_D2H = 5, DATA = 1;
the fixed fields of REG_H2D and REG_D2H span 4 dwords, those of
DMA_ACTIVATE_D2H and DATA span 1 dword, and those of PIO_SETUP_D2H span
5 dwords. -/
theorem fis_cmd_len_values :
    fis_reg_h2d_cmd_len = 5 ∧ fis_reg_d2h_cmd_len = 5 ∧
    fis_dma_activate_d2h_cmd_len = 1 ∧ fis_pio_setup_d2h_cmd_len = 5 ∧
    fis_data_cmd_len = 1 ∧
    layoutDwordSpan fis_reg_h2d_layout = 4 ∧
    layoutDwordSpan fis_reg_d2h_layout = 4 ∧
    layoutDwordSpan fis_dma_activate_d2h_layout = 1 ∧
    layoutDwordSpan fis_pio_setup_d2h_layout = 5 ∧
    layoutDwordSpan fis_data_layout = 1 := by
  decide

/-- Ceiling of `a / 512` over the rationals agrees with natural-number
ceiling division. -/
theorem ceil_div512_toNat (a : ℕ) :
    (⌈(a : ℚ) / (logical_sector_size : ℚ)⌉).toNat = (a + 511) / 512 := by
  set m : ℕ := (a + 511) / 512 with hm
  obtain ⟨h1, h2⟩ : a ≤ 512 * m ∧ 512 * m ≤ a + 511 := by omega
  have h1q : (a : ℚ) ≤ 512 * (m : ℚ) := by
    exact_mod_cast h1
  have h2q : (512 : ℚ) * (m : ℚ) ≤ (a : ℚ) + 511 := by
    exact_mod_cast h2
  have hceil : ⌈(a : ℚ) / (logical_sector_size : ℚ)⌉ = (m : ℤ) := by
    rw [show ((logical_sector_size : ℕ) : ℚ) = 512 from by
      norm_num [logical_sector_size]]
    rw [Int.ceil_eq_iff]
    constructor
    · rw [lt_div_iff₀ (by norm_num : (0 : ℚ) < 512)]
      push_cast
      linarith
    · rw [div_le_iff₀ (by norm_num : (0 : ℚ) < 512)]
      push_cast
      linarith
  rw [hceil, Int.toNat_natCast]

/-- `dwords2sectors` written over naturals: ceiling division of the rounded
numerator by 512. -/
theorem dwords2sectors_eq (n : ℕ) :
    dwords2sectors n = (roundSig53 (n * 4) + 511) / 512 := by
  unfold dwords2sectors
  exact ceil_div512_toNat _

/-- `bitLenAux` is bounded by any exponent dominating its argument, given
enough fuel. -/
theorem bitLenAux_le (fuel : ℕ) :
    ∀ m k : ℕ, m ≤ fuel → m < 2 ^ k → bitLenAux fuel m ≤ k := by
  induction fuel with
  | zero =>
    intro m k _ _
    simp [bitLenAux]
  | succ fuel ih =>
    intro m k hfuel hk
    by_cases hm : m = 0
    · simp [bitLenAux, hm]
    · rw [show bitLenAux (fuel + 1) m = bitLenAux fuel (m / 2) + 1 from by
        simp [bitLenAux, hm]]
      cases k with
      | zero => exact absurd (by simpa using hk) hm
      | succ k2 =>
        have hpow : (2 : ℕ) ^ (k2 + 1) = 2 * 2 ^ k2 := by ring
        have h1 : m / 2 ≤ fuel := by omega
        have h2 : m / 2 < 2 ^ k2 := by omega
        have h3 := ih (m / 2) k2 h1 h2
        omega

/-- A number below `2 ^ k` has bit length at most `k`. -/
theorem bitLen_le {m k : ℕ} (h : m < 2 ^ k) : bitLen m ≤ k :=
  bitLenAux_le m m k le_rfl h

/-- Binary64 rounding is exact on integers of at most 53 bits. -/
theorem roundSig53_eq_of_lt {m : ℕ} (h : m < 2 ^ 53) : roundSig53 m = m := by
  unfold roundSig53
  rw [if_pos (bitLen_le h)]

/-- C4 counterexample: at the sector count `2 ^ 53 + 1` the float quotient
inside `math.ceil` is the exact integer `2 ^ 53 + 1`, which needs 54 bits and
rounds (ties to even) down to `2 ^ 53`, so the round trip through
`sectors2dwords` returns `2 ^ 53` and not the original count. -/
theorem sector_dword_roundtrip_counterexample :
    dwords2sectors (sectors2dwords (2 ^ 53 + 1)) = 2 ^ 53 ∧
    (2 : ℕ) ^ 53 ≠ 2 ^ 53 + 1 := by
  refine ⟨?_, by omega⟩
  rw [show sectors2dwords (2 ^ 53 + 1) = 2 ^ 60 + 128 from by decide]
  rw [dwords2sectors_eq]
  rw [show roundSig53 ((2 ^ 60 + 128) * 4) = 2 ^ 62 from by decide]
  decide

/-- C4 (amended): converting whole sectors to dwords and back is the identity
for every sector count whose dword numerator fits the 53-bit float
significand (`n * 512 < 2 ^ 53`); within the same bound, a dword count that
is not a multiple of 128 rounds strictly up (for instance 129 dwords give
2 sectors); beyond the bound the float rounding inside `math.ceil` can lose
the trailing bits, as at `2 ^ 53 + 1`. -/
theorem sector_dword_conversion :
    (∀ n : ℕ, n * 512 < 2 ^ 53 → dwords2sectors (sectors2dwords n) = n) ∧
    (∀ n : ℕ, n % 128 ≠ 0 → n * 4 < 2 ^ 53 → dwords2sectors n = n / 128 + 1) ∧
    dwords2sectors 129 = 2 := by
  refine ⟨fun n h => ?_, fun n h h4 => ?_, ?_⟩
  · rw [dwords2sectors_eq]
    rw [show sectors2dwords n * 4 = n * 512 from by
      unfold sectors2dwords logical_sector_size; omega]
    rw [roundSig53_eq_of_lt h]
    omega
  · rw [dwords2sectors_eq, roundSig53_eq_of_lt h4]
    omega
  · rw [dwords2sectors_eq]
    decide

/-- Witness for C4 (amended) at the dword count 129 and the sector count 3. -/
theorem sector_dword_conversion_witness :
    (129 % 128 ≠ 0 ∧ 129 * 4 < 2 ^ 53 ∧
      dwords2sectors 129 = 129 / 128 + 1) ∧
    (3 * 512 < 2 ^ 53 ∧ dwords2sectors (sectors2dwords 3) = 3) :=
  ⟨⟨by decide, by decide,
    sector_dword_conversion.2.1 129 (by decide) (by decide)⟩,
   ⟨by decide, sector_dword_conversion.1 3 (by decide)⟩⟩

/-- With count-enable held and reset asserted exactly at step `k`,
`Timeout(5)`'s counter reads `j % 8` at step `k + j` (its register is 3 bits
wide). -/
theorem timeout5_after_reset (k j : ℕ) :
    timeoutValue 5 (fun t => t == k) (fun _ => true) (k + j) = j % 8 := by
  induction j with
  | zero =>
    cases k with
    | zero => rfl
    | succ k0 => simp [timeoutValue, counterRun, counterStep]
  | succ j ih =>
    have hne : ((k + j + 1) == k) = false := by
      simp only [beq_eq_false_iff_ne]
      omega
    have hstep : timeoutValue 5 (fun t => t == k) (fun _ => true) (k + j + 1)
        = counterStep (timeoutBits 5)
            (timeoutValue 5 (fun t => t == k) (fun _ => true) (k + j))
            ((k + j + 1) == k) true := rfl
    rw [show k + (j + 1) = k + j + 1 from rfl, hstep, hne, ih]
    show (j % 8 + 1) % 8 = (j + 1) % 8
    omega

/-- C6: for `Timeout(length=5)` with count-enable held and reset asserted
exactly at step `k`, the output is true at a step exactly when the internal
counter equals 5 at that step; the reset restarts the counter at 0 at step
`k`, the output is false at steps `k` through `k + 4`, and it is next
asserted at step `k + 5`. -/
theorem timeout_five_reset_behavior : ∀ k : ℕ,
    (∀ t, timeoutReached 5 (fun t2 => t2 == k) (fun _ => true) t = true ↔
      timeoutValue 5 (fun t2 => t2 == k) (fun _ => true) t = 5) ∧
    timeoutValue 5 (fun t2 => t2 == k) (fun _ => true) k = 0 ∧
    (∀ j, j < 5 →
      timeoutReached 5 (fun t2 => t2 == k) (fun _ => true) (k + j) = false) ∧
    timeoutReached 5 (fun t2 => t2 == k) (fun _ => true) (k + 5) = true := by
  intro k
  refine ⟨fun t => ?_, ?_, fun j hj => ?_, ?_⟩
  · simp [timeoutReached]
  · simpa using timeout5_after_reset k 0
  · unfold timeoutReached
    rw [timeout5_after_reset k j]
    simp only [beq_eq_false_iff_ne]
    omega
  · unfold timeoutReached
    rw [timeout5_after_reset k 5]
    decide

/-- Witness for C6 with the reset asserted at step 2, checked at step 2 + 3. -/
theorem timeout_five_reset_behavior_witness :
    timeoutReached 5 (fun t2 => t2 == 2) (fun _ => true) (2 + 3) = false :=
  (timeout_five_reset_behavior 2).2.2.1 3 (by decide)

/-- C7 counterexample: with count-enable held and reset never asserted,
`Timeout(5)`'s counter has incremented past 5 by step 6, yet the output is
asserted again at step 13 (the 3-bit register wraps modulo 8) — it does not
stay false forever in the absence of an external reset. -/
theorem timeout_reassert_counterexample :
    timeoutValue 5 (fun _ => false) (fun _ => true) 6 = 6 ∧
    ¬ (∀ t, 6 < t →
      timeoutReached 5 (fun _ => false) (fun _ => true) t = false) := by
  constructor
  · decide
  · intro h
    exact absurd (h 13 (by omega)) (by decide)

/-- With count-enable held and no reset, `Timeout(length)`'s counter follows
`t` modulo the capacity of its register. -/
theorem timeout_free_run (length t : ℕ) :
    timeoutValue length (fun _ => false) (fun _ => true) t
      = t % 2 ^ timeoutBits length := by
  induction t with
  | zero => simp [timeoutValue, counterRun]
  | succ t ih =>
    have hstep : timeoutValue length (fun _ => false) (fun _ => true) (t + 1)
        = counterStep (timeoutBits length)
            (timeoutValue length (fun _ => false) (fun _ => true) t)
            false true := rfl
    rw [hstep, ih]
    show (t % 2 ^ timeoutBits length + 1) % 2 ^ timeoutBits length
        = (t + 1) % 2 ^ timeoutBits length
    exact Nat.ModEq.add_right 1 (Nat.mod_modEq t _)

/-- C7 (amended): with count-enable held and reset never asserted,
`Timeout(length)`'s counter equals `t` modulo `2 ^ bits` (the register width
allocated by `Signal(max=length)`), so the output is asserted exactly at the
steps congruent to `length` modulo `2 ^ bits`: after the counter passes
`length` the output stays false only until the register wraps, and then
re-asserts periodically without any external reset. -/
theorem timeout_periodic_output : ∀ (length t : ℕ),
    timeoutValue length (fun _ => false) (fun _ => true) t
      = t % 2 ^ timeoutBits length ∧
    (timeoutReached length (fun _ => false) (fun _ => true) t = true ↔
      t % 2 ^ timeoutBits length = length) := by
  intro length t
  refine ⟨timeout_free_run length t, ?_⟩
  unfold timeoutReached
  rw [timeout_free_run length t]
  simp

/-- Witness for C7 (amended) at length 5, step 13. -/
theorem timeout_periodic_output_witness :
    timeoutValue 5 (fun _ => false) (fun _ => true) 13
      = 13 % 2 ^ timeoutBits 5 :=
  (timeout_periodic_output 5 13).1

/-- C8 counterexample: a 1-bit `Counter` with count-enable held and reset
deasserted reads 1 after step 1 and wraps to 0 at step 2 — the value neither
increments by exactly one nor stays non-decreasing while reset is
deasserted. -/
theorem counter_wrap_counterexample :
    counterRun 1 (fun _ => false) (fun _ => true) 1 = 1 ∧
    counterRun 1 (fun _ => false) (fun _ => true) 2 = 0 ∧
    ¬ (counterRun 1 (fun _ => false) (fun _ => true) 1 ≤
       counterRun 1 (fun _ => false) (fun _ => true) 2) := by
  decide

/-- C8 (amended): at every synchronous step of `Counter`, reset forces the
value to 0; count-enable without reset replaces the value by its successor
modulo `2 ^ width`; with both controls low the value is unchanged; and while
reset is deasserted the value is non-decreasing whenever the increment does
not overflow the register width. -/
theorem counter_step_behavior : ∀ (w : ℕ) (reset ce : ℕ → Bool) (t : ℕ),
    (reset (t + 1) = true → counterRun w reset ce (t + 1) = 0) ∧
    (reset (t + 1) = false → ce (t + 1) = true →
      counterRun w reset ce (t + 1)
        = (counterRun w reset ce t + 1) % 2 ^ w) ∧
    (reset (t + 1) = false → ce (t + 1) = false →
      counterRun w reset ce (t + 1) = counterRun w reset ce t) ∧
    (reset (t + 1) = false → counterRun w reset ce t + 1 < 2 ^ w →
      counterRun w reset ce t ≤ counterRun w reset ce (t + 1)) := by
  intro w reset ce t
  refine ⟨fun hr => ?_, fun hr hc => ?_, fun hr hc => ?_, fun hr hlt => ?_⟩
  · simp [counterRun, counterStep, hr]
  · simp [counterRun, counterStep, hr, hc]
  · simp [counterRun, counterStep, hr, hc]
  · cases hce : ce (t + 1) with
    | false =>
      have heq : counterRun w reset ce (t + 1) = counterRun w reset ce t := by
        simp [counterRun, counterStep, hr, hce]
      rw [heq]
    | true =>
      have heq : counterRun w reset ce (t + 1)
          = counterRun w reset ce t + 1 := by
        simp [counterRun, counterStep, hr, hce, Nat.mod_eq_of_lt hlt]
      omega

/-- Witness for C8 with a 2-bit counter, count-enable held, reset low, across
the step from 0 to 1. -/
theorem counter_step_behavior_witness :
    counterRun 2 (fun _ => false) (fun _ => true) 1
      = (counterRun 2 (fun _ => false) (fun _ => true) 0 + 1) % 2 ^ 2 ∧
    counterRun 2 (fun _ => false) (fun _ => true) 0 ≤
      counterRun 2 (fun _ => false) (fun _ => true) 1 :=
  ⟨(counter_step_behavior 2 (fun _ => false) (fun _ => true) 0).2.1 rfl rfl,
   (counter_step_behavior 2 (fun _ => false) (fun _ => true) 0).2.2.2 rfl
     (by decide)⟩

/-- Witness for C2 (amended) at width 16. -/
theorem descriptor_field_names_witness :
    ¬ (((transport_rx_description 16).layout.map Prod.fst).Nodup) :=
  (descriptor_field_names 16).2.2.2.2.2.2.2.2.2

end LiteSata
